import Mathlib

/-!
Verification development for the World Helper chat widget
(src/frontend/src/components/ChatInterface.tsx).

Strings from the source are modelled as `List Char`.  Each definition below
embeds one function (or one effect block) of the source component; line
references point into ChatInterface.tsx.
-/

namespace WorldHelper

/-- Strings are modelled as lists of characters. -/
abbrev Str := List Char

/-- The backtick character (written via its code point). -/
def btick : Char := Char.ofNat 96

/-- The apostrophe character (written via its code point). -/
def apos : Char := Char.ofNat 39

/-- JS `\w` character class (ASCII word characters), as used by the
sanitization regexes at lines 24-25. -/
def isWordChar (c : Char) : Bool :=
  (48 ≤ c.toNat && c.toNat ≤ 57) || (65 ≤ c.toNat && c.toNat ≤ 90) ||
    (97 ≤ c.toNat && c.toNat ≤ 122) || c.toNat = 95

/-- JS `\s` character class (whitespace, including the Unicode space
separators JS regexes recognise). -/
def isJsSpace (c : Char) : Bool :=
  let n := c.toNat
  (9 ≤ n && n ≤ 13) || n = 32 || n = 160 || n = 5760 ||
    (8192 ≤ n && n ≤ 8202) || n = 8232 || n = 8233 || n = 8239 ||
    n = 8287 || n = 12288 || n = 65279

/-- JS `\d` character class. -/
def isDigitChar (c : Char) : Bool :=
  48 ≤ c.toNat && c.toNat ≤ 57

/-- The character class `[\w\s.,!?-]` kept by the second replace of
`sanitizeInput` (line 25). -/
def allowedChar (c : Char) : Bool :=
  isWordChar c || isJsSpace c || c = '.' || c = ',' || c = '!' || c = '?' ||
    c = '-'

/-- Scanner for the global replace `input.replace(/<[^>]*>/g, '')`
(line 24): a `<` that is followed (anywhere later) by a `>` opens a span
that is removed up to and including the next `>`; a `<` with no later `>`
cannot complete a match and is kept.  The Bool flag is true while inside a
span being removed. -/
def stripTagsGo : Bool → Str → Str
  | _, [] => []
  | true, c :: rest => if c = '>' then stripTagsGo false rest else stripTagsGo true rest
  | false, c :: rest =>
    if c = '<' && rest.any (fun d => d = '>') then stripTagsGo true rest
    else c :: stripTagsGo false rest

/-- `sanitizeInput` (lines 23-26): strip `<...>` spans, then delete every
character outside `[\w\s.,!?-]`. -/
def sanitizeInput (input : Str) : Str :=
  (stripTagsGo false input).filter allowedChar

/-- One pattern character matched case-insensitively against one subject
character, as the `/i` regex flag does on ASCII: equal characters match,
and a lowercase-letter pattern character also matches its uppercase
counterpart.  All patterns in the source denylist are lowercase ASCII. -/
def matchCI (p c : Char) : Bool :=
  c = p || (97 ≤ p.toNat && p.toNat ≤ 122 && c.toNat + 32 = p.toNat)

/-- The pattern matches at the head of the subject (case-insensitively). -/
def prefixCI : Str → Str → Bool
  | [], _ => true
  | _ :: _, [] => false
  | p :: ps, c :: cs => matchCI p c && prefixCI ps cs

/-- The pattern occurs somewhere in the subject (case-insensitively):
semantics of `/pattern/i.test(input)` for a literal pattern. -/
def containsCI (pat : Str) : Str → Bool
  | [] => prefixCI pat []
  | c :: rest => prefixCI pat (c :: rest) || containsCI pat rest

/-- The denylist of `isValidInput` (lines 29-38); `eval\(` and `execute\(`
are the literal texts `eval(` and `execute(`. -/
def dangerousPatterns : List Str :=
  [("javascript:".toList), ("data:".toList), ("vbscript:".toList),
   ("onload=".toList), ("onerror=".toList), ("<script".toList),
   ("eval(".toList), ("execute(".toList)]

/-- `isValidInput` (lines 28-40): true iff no denylisted pattern occurs in
the input (case-insensitive test). -/
def isValidInput (input : Str) : Bool :=
  !(dangerousPatterns.any fun pat => containsCI pat input)

/-- JS `String.prototype.trim`. -/
def jsTrim (l : Str) : Str :=
  ((l.dropWhile isJsSpace).reverse.dropWhile isJsSpace).reverse

/-- Message roles (interface `Message`, line 17). -/
inductive Role where
  | user
  | assistant
  deriving DecidableEq

/-- The `Message` interface (lines 15-20). -/
structure Message where
  content : Str
  role : Role
  timestamp : Str
  feedbackGiven : Option Bool := none
  deriving DecidableEq

/-- The greeting text used at lines 83 and 663: `Hi!`, a wave emoji, then
the self-introduction of World Helper (apostrophe spliced in by code
point). -/
def greetingContent : Str :=
  ("Hi! 👋 I".toList) ++ apos :: ("m World Helper. Ask me anything about World!".toList)

/-- The single default greeting message (lines 82-86 and 662-666). -/
def greetingMessage (now : Str) : Message :=
  { content := greetingContent, role := Role.assistant, timestamp := now }

/-- One `setMessages` update of the streaming read loop (lines 444-457):
if the trailing message is an assistant message its content is replaced by
the accumulated buffer, otherwise a new assistant message holding the
buffer is appended. -/
def streamStep (msgs : List Message) (buffer : Str) (now : Str) : List Message :=
  match msgs.getLast? with
  | some last =>
    if last.role = Role.assistant then
      msgs.dropLast ++ [{ last with content := buffer }]
    else
      msgs ++ [{ content := buffer, role := Role.assistant, timestamp := now }]
  | none => msgs ++ [{ content := buffer, role := Role.assistant, timestamp := now }]

/-- The read loop of `sendMessage` (lines 437-458) as a fold: each decoded
chunk is appended to the accumulated buffer and one `streamStep` update is
applied.  Returns the transcript after all chunks. -/
def runStream (msgs : List Message) (acc : Str) (chunks : List Str) (now : Str) :
    List Message :=
  match chunks with
  | [] => msgs
  | c :: cs => runStream (streamStep msgs (acc ++ c) now) (acc ++ c) cs now

/-- Like `runStream`, but recording the transcript after every chunk
(the sequence of states `setMessages` passes through). -/
def runStreamTrace (msgs : List Message) (acc : Str) (chunks : List Str) (now : Str) :
    List (List Message) :=
  match chunks with
  | [] => []
  | c :: cs =>
    let msgs2 := streamStep msgs (acc ++ c) now
    msgs2 :: runStreamTrace msgs2 (acc ++ c) cs now

/-- The persisted localStorage keys `chatMessages` and `conversationId`
(`none` models an absent or unparseable key). -/
structure StoreState where
  chatMessages : Option (List Message)
  conversationId : Option Str
  deriving DecidableEq

/-- JS `array.slice(-n)`: the last `n` elements (the whole list when it is
shorter). -/
def lastN (n : Nat) (l : List α) : List α :=
  l.drop (l.length - n)

/-- Outcome of the first `localStorage.setItem` attempt in the
save-messages effect. -/
inductive WriteResult where
  | ok
  | quotaExceeded
  | otherError
  deriving DecidableEq

/-- The save-messages effect (lines 312-324): persist the last 100
messages; on a `QuotaExceededError` persist the last 50 instead and replace
the in-memory transcript with them; on any other write error only a warning
is logged.  Returns (store after, in-memory transcript after). -/
def saveEffect (msgs : List Message) (store : StoreState) (w : WriteResult) :
    StoreState × List Message :=
  match w with
  | WriteResult.ok => ({ store with chatMessages := some (lastN 100 msgs) }, msgs)
  | WriteResult.quotaExceeded =>
    ({ store with chatMessages := some (lastN 50 msgs) }, lastN 50 msgs)
  | WriteResult.otherError => (store, msgs)

/-- `initialMessages` (lines 73-87): return the saved transcript when the
key is present (and parses), else the single greeting message. -/
def loadMessages (store : StoreState) (now : Str) : List Message :=
  match store.chatMessages with
  | some saved => saved
  | none => [greetingMessage now]

/-- Drawer views (line 131). -/
inductive DrawerView where
  | main
  | about
  | links
  | privacy
  | report
  deriving DecidableEq

/-- The component state relevant to the chat session engine: transcript,
input box, loading flag, error notice, the `conversationId` React state
(note: created with no setter, line 109), the persisted store, and the
drawer fields touched by `clearChatHistory`. -/
structure ChatState where
  messages : List Message
  inputMessage : Str
  inputError : Option Str
  isLoading : Bool
  error : Option Str
  conversationId : Str
  store : StoreState
  isDrawerOpen : Bool
  currentView : DrawerView
  deriving DecidableEq

/-- The `conversationId` field sent in the request body (lines 160 and
423): it is read from the React state, not from localStorage. -/
def requestConversationId (st : ChatState) : Str :=
  st.conversationId

/-- The generic failure notice set in the catch blocks (lines 198, 461). -/
def genericFailureNotice : Str :=
  ("Sorry, something went wrong. Please try again.".toList)

/-- Possible outcomes of one fetch/stream exchange: non-success HTTP
status (line 429 throw), missing body stream (line 432 throw), or a
sequence of decoded chunks that either ends normally (`failed = false`) or
is cut short by an exception in the read loop (`failed = true`). -/
inductive StreamOutcome where
  | httpError
  | noStream
  | chunks (cs : List Str) (failed : Bool)
  deriving DecidableEq

/-- Transcript and error updates produced by the try/catch body of an
exchange, given the transcript that includes the new user message. -/
def applyOutcome (msgs : List Message) (o : StreamOutcome) (now : Str) :
    List Message × Option Str :=
  match o with
  | StreamOutcome.httpError => (msgs, some genericFailureNotice)
  | StreamOutcome.noStream => (msgs, some genericFailureNotice)
  | StreamOutcome.chunks cs failed =>
    (runStream msgs [] cs now, if failed then some genericFailureNotice else none)

/-- The guard of `sendMessage` (lines 397-399): non-blank input, not
loading, no input error, length cap, and the denylist check. -/
def sendGuardOk (st : ChatState) : Bool :=
  !(jsTrim st.inputMessage).isEmpty && !st.isLoading && st.inputError.isNone &&
    decide (st.inputMessage.length ≤ 800) && isValidInput st.inputMessage

/-- The synchronous prefix of `sendMessage` (lines 395-427): if the guard
passes, append the sanitized user message, clear the input, set the loading
flag and issue the fetch.  Returns the new state and the number of outbound
requests issued (0 or 1). -/
def sendStart (st : ChatState) (now : Str) : ChatState × Nat :=
  if sendGuardOk st then
    let sanitized := sanitizeInput (jsTrim st.inputMessage)
    ({ st with
        messages := st.messages ++ [{ content := sanitized, role := Role.user, timestamp := now }],
        inputMessage := [],
        isLoading := true }, 1)
  else (st, 0)

/-- The awaited remainder of an exchange (lines 429-465): fold the stream
into the transcript, set the generic error on any failure (catch), and
always clear the loading flag (finally). -/
def sendFinish (st : ChatState) (o : StreamOutcome) (now : Str) : ChatState :=
  let r := applyOutcome st.messages o now
  { st with
      messages := r.1,
      isLoading := false,
      error := match r.2 with
        | some e => some e
        | none => st.error }

/-- A whole `sendMessage` call (lines 395-465): guard, then start and
finish of the exchange.  Returns the final state and the number of
outbound requests issued. -/
def sendMessage (st : ChatState) (o : StreamOutcome) (now : Str) : ChatState × Nat :=
  if sendGuardOk st then ((sendFinish ((sendStart st now).1) o now), 1)
  else (st, 0)

/-- A whole `handleQuickAction` call (lines 134-202): its only guard is
the denylist check on the sanitized message — it does not test
`isLoading`.  Body identical to a `sendMessage` exchange. -/
def quickAction (st : ChatState) (message : Str) (o : StreamOutcome) (now : Str) :
    ChatState × Nat :=
  let sanitized := sanitizeInput (jsTrim message)
  if isValidInput sanitized then
    let st1 : ChatState :=
      { st with
          messages := st.messages ++ [{ content := sanitized, role := Role.user, timestamp := now }],
          inputMessage := [],
          isLoading := true }
    (sendFinish st1 o now, 1)
  else (st, 0)

/-- `clearChatHistory` (lines 660-680): reset the transcript to the single
greeting, persist it, persist a newly generated `conv_` id, and close the
drawer.  The React `conversationId` state is not (and cannot be) updated:
`useState` at line 109 exposes no setter. -/
def clearChatHistory (st : ChatState) (now : Str) (freshFragment : Str) : ChatState :=
  let initialMessage : List Message := [greetingMessage now]
  { st with
      messages := initialMessage,
      store :=
        { st.store with
            chatMessages := some initialMessage,
            conversationId := some (("conv_".toList) ++ freshFragment) },
      isDrawerOpen := false,
      currentView := DrawerView.main }

/-- Exact (case-sensitive) prefix test on character lists. -/
def prefixOf : Str → Str → Bool
  | [], _ => true
  | _ :: _, [] => false
  | p :: ps, c :: cs => p = c && prefixOf ps cs

/-- The opening/closing fence marker `three backticks`. -/
def fenceMarker : Str := [btick, btick, btick]

/-- Split a string at its first run of three consecutive backticks:
`breakOnTriple l = some (pre, rest)` means `l = pre ++ fenceMarker ++ rest`
and `pre` holds no earlier occurrence.  `none` means no occurrence. -/
def breakOnTriple : Str → Option (Str × Str)
  | [] => none
  | c :: rest =>
    if c = btick && rest.take 2 = [btick, btick] then some ([], rest.drop 2)
    else (breakOnTriple rest).map fun p => (c :: p.1, p.2)

/-- One leftmost, lazy match of the split regex at line 532 (a fenced span
```...``` with lazily matched interior): `some (pre, delim, rest)` splits
the text into the text before the match, the matched fenced span (fences
included), and the remainder. -/
def fullFenceSplit (l : Str) : Option (Str × Str × Str) :=
  match breakOnTriple l with
  | none => none
  | some (pre, r1) =>
    match breakOnTriple r1 with
    | none => none
    | some (inner, r2) => some (pre, fenceMarker ++ inner ++ fenceMarker, r2)

/-- The full split `text.split(regex-with-capture)` (line 532):
alternating non-matching and matching parts, delimiters kept (capture
group), empty boundary parts included. -/
def splitFences (l : Str) : List Str :=
  match h : fullFenceSplit l with
  | none => [l]
  | some (pre, delim, rest) => pre :: delim :: splitFences rest
termination_by l.length
decreasing_by
  have decomp : ∀ (m pre2 rest2 : Str), breakOnTriple m = some (pre2, rest2) →
      m.length = pre2.length + 3 + rest2.length := by
    intro m
    induction m with
    | nil => intro pre2 rest2 hm; simp [breakOnTriple] at hm
    | cons c tl ih =>
      intro pre2 rest2 hm
      rw [breakOnTriple] at hm
      by_cases hc : c = btick ∧ tl.take 2 = [btick, btick]
      · rw [if_pos (by simp [hc.1, hc.2])] at hm
        have h2 : 2 ≤ tl.length := by
          have := congrArg List.length hc.2
          simp at this
          omega
        simp at hm
        obtain ⟨rfl, rfl⟩ := hm
        simp
        omega
      · rw [if_neg (by simpa using hc)] at hm
        cases he : breakOnTriple tl with
        | none => rw [he] at hm; simp at hm
        | some p =>
          rw [he] at hm
          simp at hm
          obtain ⟨h1, h2⟩ := hm
          subst h1; subst h2
          have := ih p.1 p.2 (by rw [he])
          simp
          omega
  rw [fullFenceSplit] at h
  cases h1 : breakOnTriple l with
  | none => rw [h1] at h; simp at h
  | some q1 =>
    obtain ⟨p1, r1⟩ := q1
    rw [h1] at h
    simp only at h
    cases h2 : breakOnTriple r1 with
    | none => rw [h2] at h; simp at h
    | some q2 =>
      obtain ⟨p2, r2⟩ := q2
      rw [h2] at h
      simp at h
      obtain ⟨-, -, h3⟩ := h
      subst h3
      have e1 := decomp _ _ _ h1
      have e2 := decomp _ _ _ h2
      omega

/-- Attempt to match `fence(\w+)?\n([\s\S]*?)fence` (line 537) at the very
start of the text: optional greedy word-run language label, a mandatory
newline, then the lazily matched code body up to the next fence. -/
def tryMatchAt (l : Str) : Option (Str × Str) :=
  if prefixOf fenceMarker l then
    let after := l.drop 3
    let lang := after.takeWhile isWordChar
    match after.dropWhile isWordChar with
    | c :: rest2 =>
      if c = '\n' then
        match breakOnTriple rest2 with
        | some (body, _) => some (lang, body)
        | none => none
      else none
    | [] => none
  else none

/-- Unanchored search of the match regex (JS `String.match` scans every
start position): first position where `tryMatchAt` succeeds. -/
def findFenceMatch : Str → Option (Str × Str)
  | [] => none
  | c :: rest =>
    match tryMatchAt (c :: rest) with
    | some r => some r
    | none => findFenceMatch rest

/-- JS `String.split(sep)` for a single-character separator: keeps empty
pieces, `"" → [""]`. -/
def splitOnChar (sep : Char) : Str → List Str
  | [] => [[]]
  | c :: rest =>
    if c = sep then [] :: splitOnChar sep rest
    else
      match splitOnChar sep rest with
      | [] => [[c]]
      | s :: ss => (c :: s) :: ss

/-- The `^\d+\.` test of numbered lines (line 593): `some marker` holds the
matched text (digits plus the dot). -/
def numMarker (l : Str) : Option Str :=
  let ds := l.takeWhile isDigitChar
  if ds.isEmpty then none
  else if (l.drop ds.length).head? = some '.' then some (ds ++ ['.'])
  else none

/-- Content nodes produced for one line of a non-code part (lines 573-611).
Payloads keep the raw line; the inline rewrites applied to the rendered
line (bold spans, autolinked URLs) are presentation detail not modelled
here, and no claim depends on them.  The `lineBreak` variant exists only so
that the specification taxonomy can be stated; the source produces none
(an empty line yields the React child `null`, which renders nothing). -/
inductive LineNode where
  | bullet (line : Str)
  | numbered (marker : Str) (line : Str)
  | paragraph (line : Str)
  | lineBreak
  deriving DecidableEq

/-- Rendering of one line (lines 581-610): bullet lines (trimmed line
starts with the bullet glyph), then numbered lines, then `line ? <p> : null`
— a non-empty line becomes a paragraph and an empty line becomes `null`
(no node). -/
def lineToNode (line : Str) : Option LineNode :=
  if (jsTrim line).head? = some '•' then some (LineNode.bullet line)
  else
    match numMarker line with
    | some m => some (LineNode.numbered m line)
    | none => if line.isEmpty then none else some (LineNode.paragraph line)

/-- Top-level nodes of the rendered message (lines 535-614): a fenced span
with a successful inner match becomes a code block (`pre`/`code`, body
trimmed); a part starting with a fence whose inner match fails is returned
as the raw string (plain text); every other part becomes a text container
holding its per-line nodes. -/
inductive Node where
  | codeBlock (language : Str) (code : Str)
  | plain (text : Str)
  | textPart (lines : List LineNode)
  deriving DecidableEq

/-- Processing of one split part (lines 535-614). -/
def processPart (p : Str) : Node :=
  if prefixOf fenceMarker p then
    match findFenceMatch p with
    | none => Node.plain p
    | some (lang, body) => Node.codeBlock lang (jsTrim body)
  else
    Node.textPart ((splitOnChar '\n' p).filterMap lineToNode)

/-- `formatMessage` (lines 531-614): split on fenced spans and process
each part. -/
def formatMessage (text : Str) : List Node :=
  (splitFences text).map processPart

/-- A sample persisted user message, for concrete instantiations. -/
def sampleMsg : Message :=
  { content := ("hi".toList), role := Role.user, timestamp := ("t".toList) }

/-- A concrete idle component state with a valid pending input. -/
def stIdle : ChatState :=
  { messages := [sampleMsg]
    inputMessage := ("Hello".toList)
    inputError := none
    isLoading := false
    error := none
    conversationId := ("conv_old".toList)
    store := { chatMessages := none, conversationId := some (("conv_old".toList)) }
    isDrawerOpen := false
    currentView := DrawerView.main }

/-- The same state while a reply is outstanding (loading flag set). -/
def stLoading : ChatState :=
  { stIdle with isLoading := true }

/-- Detector for the `lineBreak` variant. -/
def isBreakNode : LineNode → Bool
  | LineNode.lineBreak => true
  | _ => false

/-- A top-level node containing (or being) a line break. -/
def nodeHasBreak : Node → Bool
  | Node.textPart ls => ls.any isBreakNode
  | _ => false

/-! ## Helper lemmas -/

/-- Unfolding of `splitFences` when the text holds no fenced span. -/
theorem splitFences_of_none {l : Str} (h : fullFenceSplit l = none) :
    splitFences l = [l] := by
  rw [splitFences.eq_def, h]

/-- Unfolding of `splitFences` at a leftmost fenced span. -/
theorem splitFences_of_some {l pre delim rest : Str}
    (h : fullFenceSplit l = some (pre, delim, rest)) :
    splitFences l = pre :: delim :: splitFences rest := by
  rw [splitFences.eq_def, h]

/-- A stream update on a transcript whose trailing message is not an
assistant message appends a new assistant message. -/
theorem streamStep_not_assistant {msgs : List Message} {last : Message}
    (buffer now : Str) (h : msgs.getLast? = some last)
    (hrole : last.role ≠ Role.assistant) :
    streamStep msgs buffer now =
      msgs ++ [{ content := buffer, role := Role.assistant, timestamp := now }] := by
  rw [streamStep, h]
  simp [hrole]

/-- A stream update on a transcript whose trailing message is an assistant
message replaces the content of that message with the buffer. -/
theorem streamStep_assistant {msgs : List Message} {last : Message}
    (buffer now : Str) (h : msgs.getLast? = some last)
    (hrole : last.role = Role.assistant) :
    streamStep msgs buffer now = msgs.dropLast ++ [{ last with content := buffer }] := by
  rw [streamStep, h]
  simp [hrole]

/-- A list is a prefix of itself extended by anything. -/
theorem prefixOf_append (p r : Str) : prefixOf p (p ++ r) = true := by
  induction p with
  | nil => rfl
  | cons c cs ih => simp [prefixOf, ih]

/-- If a list has no triple-backtick run, neither has its tail. -/
theorem breakOnTriple_cons_none {c : Char} {l : Str}
    (h : breakOnTriple (c :: l) = none) : breakOnTriple l = none := by
  rw [breakOnTriple] at h
  by_cases hc : c = btick ∧ l.take 2 = [btick, btick]
  · rw [if_pos (by simp [hc.1, hc.2])] at h
    simp at h
  · rw [if_neg (by simpa using hc)] at h
    cases he : breakOnTriple l with
    | none => rfl
    | some p => rw [he] at h; simp at h

/-- If a list has no triple-backtick run, neither has any suffix. -/
theorem breakOnTriple_suffix_none {l l' : Str} (hs : l' <:+ l)
    (h : breakOnTriple l = none) : breakOnTriple l' = none := by
  obtain ⟨t, rfl⟩ := hs
  induction t with
  | nil => exact h
  | cons c cs ih => exact ih (breakOnTriple_cons_none h)

/-- A text without a triple-backtick run (even one formed together with
the first two backticks of the following fence) splits exactly at an appended
fence. -/
theorem breakOnTriple_fence {m : Str} (r : Str)
    (h : breakOnTriple (m ++ [btick, btick]) = none) :
    breakOnTriple (m ++ (fenceMarker ++ r)) = some (m, r) := by
  induction m with
  | nil =>
    show breakOnTriple (btick :: btick :: btick :: r) = some ([], r)
    rw [breakOnTriple]
    rw [if_pos (by simp)]
    simp
  | cons c m' ih =>
    have hEq : (m' ++ [btick, btick]).take 2 = (m' ++ (fenceMarker ++ r)).take 2 := by
      match m' with
      | [] => simp [fenceMarker]
      | [y] => simp [fenceMarker]
      | y :: z :: tl => simp
    rw [List.cons_append] at h
    rw [breakOnTriple] at h
    rw [List.cons_append, breakOnTriple]
    cases hb : (decide (c = btick) && decide ((m' ++ [btick, btick]).take 2 = [btick, btick])) with
    | true =>
      exfalso
      rw [if_pos hb] at h
      simp at h
    | false =>
      rw [if_neg (by simp [hb])] at h
      have hb2 : (decide (c = btick) &&
          decide ((m' ++ (fenceMarker ++ r)).take 2 = [btick, btick])) = false := by
        rw [← hEq]
        exact hb
      rw [if_neg (by simp [hb2])]
      cases he : breakOnTriple (m' ++ [btick, btick]) with
      | some p => rw [he] at h; simp at h
      | none =>
        rw [ih he]
        rfl

/-- The anchored fence match fails whenever the text after the opening
fence position holds no closing fence. -/
theorem tryMatchAt_none {l : Str} (h : breakOnTriple (l.drop 3) = none) :
    tryMatchAt l = none := by
  simp only [tryMatchAt]
  by_cases hp : prefixOf fenceMarker l = true
  · rw [if_pos hp]
    cases hd : (l.drop 3).dropWhile isWordChar with
    | nil => simp [hd]
    | cons c rest2 =>
      have hs : rest2 <:+ l.drop 3 := by
        have h1 : c :: rest2 <:+ l.drop 3 := hd ▸ List.dropWhile_suffix _
        exact (List.suffix_cons c rest2).trans h1
      have hb := breakOnTriple_suffix_none hs h
      simp only [hd]
      by_cases hc : c = '\n'
      · simp [hc, hb]
      · simp [hc]
  · rw [if_neg hp]

/-- The unanchored fence match fails whenever the text beyond the first
three characters holds no triple-backtick run: every candidate closing
fence would have to live there. -/
theorem findFenceMatch_none : ∀ {l : Str}, breakOnTriple (l.drop 3) = none →
    findFenceMatch l = none := by
  intro l
  induction l with
  | nil => intro h; rfl
  | cons c rest ih =>
    intro h
    rw [findFenceMatch, tryMatchAt_none h]
    have h2 : breakOnTriple (rest.drop 3) = none := by
      refine breakOnTriple_suffix_none ?_ h
      have e : ((c :: rest).drop 3).drop 1 = rest.drop 3 := by
        simp [List.drop_drop]
      rw [← e]
      exact List.drop_suffix _ _
    exact ih h2

/-! ## Claims -/

/-- C1: each chunk update replaces the content of the trailing message with the
full accumulated buffer when that message is an assistant message, and
otherwise appends a new assistant message holding the buffer; feeding the
chunks `Hel`, `lo, `, `world` to a transcript ending in a user message
makes the trailing assistant content progress `Hel`, `Hello, `,
`Hello, world`, and the exchange adds exactly one assistant message. -/
theorem c1_streaming_update (msgs : List Message) (last : Message) (now : Str)
    (h : msgs.getLast? = some last) (hrole : last.role = Role.user) :
    (∀ (ms : List Message) (lm : Message) (buf : Str), ms.getLast? = some lm →
      lm.role = Role.assistant →
      streamStep ms buf now = ms.dropLast ++ [{ lm with content := buf }]) ∧
    (∀ (ms : List Message) (lm : Message) (buf : Str), ms.getLast? = some lm →
      lm.role ≠ Role.assistant →
      streamStep ms buf now =
        ms ++ [{ content := buf, role := Role.assistant, timestamp := now }]) ∧
    ((runStreamTrace msgs [] [("Hel".toList), ("lo, ".toList), ("world".toList)] now).map
        (fun ms => ms.getLast?.map Message.content) =
      [some ("Hel".toList), some ("Hello, ".toList), some ("Hello, world".toList)]) ∧
    ((runStreamTrace msgs [] [("Hel".toList), ("lo, ".toList), ("world".toList)] now).getLast? =
      some (msgs ++
        [{ content := ("Hello, world".toList), role := Role.assistant, timestamp := now }])) := by
  have hne : last.role ≠ Role.assistant := by rw [hrole]; decide
  refine ⟨fun ms lm buf hl hr => streamStep_assistant buf now hl hr,
    fun ms lm buf hl hr => streamStep_not_assistant buf now hl hr, ?_, ?_⟩ <;>
  · simp only [runStreamTrace, List.nil_append]
    rw [streamStep_not_assistant _ now h hne]
    rw [streamStep_assistant _ now (List.getLast?_concat _) rfl, List.dropLast_concat]
    rw [streamStep_assistant _ now (List.getLast?_concat _) rfl, List.dropLast_concat]
    simp [List.getLast?_concat]

/-- Witness for C1 at a concrete one-message transcript. -/
theorem c1_streaming_update_witness :
    (runStreamTrace [sampleMsg] [] [("Hel".toList), ("lo, ".toList), ("world".toList)]
        (("t2".toList))).map (fun ms => ms.getLast?.map Message.content) =
      [some ("Hel".toList), some ("Hello, ".toList), some ("Hello, world".toList)] :=
  (c1_streaming_update [sampleMsg] sampleMsg (("t2".toList)) rfl rfl).2.2.1

/-- C2: when the first persistence write signals a storage-quota failure
on a transcript of more than 50 messages, the store and the in-memory
transcript both end up equal to exactly the last 50 messages (a length-50
suffix of the original). -/
theorem c2_quota_fallback (msgs : List Message) (store : StoreState)
    (h : 50 < msgs.length) :
    ((saveEffect msgs store WriteResult.quotaExceeded).1).chatMessages =
      some ((saveEffect msgs store WriteResult.quotaExceeded).2) ∧
    (saveEffect msgs store WriteResult.quotaExceeded).2 = lastN 50 msgs ∧
    (saveEffect msgs store WriteResult.quotaExceeded).2 <:+ msgs ∧
    ((saveEffect msgs store WriteResult.quotaExceeded).2).length = 50 := by
  refine ⟨rfl, rfl, List.drop_suffix _ _, ?_⟩
  simp only [saveEffect, lastN, List.length_drop]
  omega

/-- Witness for C2 at a concrete 51-message transcript. -/
theorem c2_quota_fallback_witness :
    50 < (List.replicate 51 sampleMsg).length ∧
    ((saveEffect (List.replicate 51 sampleMsg) { chatMessages := none, conversationId := none }
        WriteResult.quotaExceeded).2).length = 50 :=
  ⟨by simp, (c2_quota_fallback _ _ (by simp)).2.2.2⟩

/-- C3: a successful save persists the last 100 messages (never more);
loading after saving returns the transcript unchanged when it has at most
100 messages, and exactly its last 100 (a length-100 suffix, order
preserved) when it is longer. -/
theorem c3_save_load_roundtrip (msgs : List Message) (store : StoreState) (now : Str) :
    ((saveEffect msgs store WriteResult.ok).1).chatMessages = some (lastN 100 msgs) ∧
    (lastN 100 msgs).length ≤ 100 ∧
    (msgs.length ≤ 100 → loadMessages ((saveEffect msgs store WriteResult.ok).1) now = msgs) ∧
    (100 < msgs.length →
      loadMessages ((saveEffect msgs store WriteResult.ok).1) now = lastN 100 msgs ∧
      lastN 100 msgs <:+ msgs ∧ (lastN 100 msgs).length = 100) := by
  refine ⟨rfl, ?_, ?_, ?_⟩
  · simp only [lastN, List.length_drop]; omega
  · intro h
    show lastN 100 msgs = msgs
    unfold lastN
    have h0 : msgs.length - 100 = 0 := by omega
    rw [h0, List.drop_zero]
  · intro h
    exact ⟨rfl, List.drop_suffix _ _, by simp only [lastN, List.length_drop]; omega⟩

/-- Witness for C3 at a 1-message and a 101-message transcript. -/
theorem c3_save_load_roundtrip_witness :
    ([sampleMsg].length ≤ 100 ∧
      loadMessages ((saveEffect [sampleMsg] { chatMessages := none, conversationId := none }
        WriteResult.ok).1) (("t".toList)) = [sampleMsg]) ∧
    (100 < (List.replicate 101 sampleMsg).length ∧
      loadMessages ((saveEffect (List.replicate 101 sampleMsg)
          { chatMessages := none, conversationId := none } WriteResult.ok).1) (("t".toList)) =
        lastN 100 (List.replicate 101 sampleMsg)) :=
  ⟨⟨by simp, (c3_save_load_roundtrip _ _ _).2.2.1 (by simp)⟩,
   ⟨by simp, ((c3_save_load_roundtrip _ _ _).2.2.2 (by simp)).1⟩⟩

/-- C4 counterexample: a quick-action submission issued while the loading
flag is set still issues an outbound request (and changes the state), so
the concurrent-submission guard does not cover the quick-action entry
point as the claim states. -/
theorem c4_counterexample :
    stLoading.isLoading = true ∧
    (quickAction stLoading (("Hello".toList)) (StreamOutcome.chunks [] false)
        (("t2".toList))).2 = 1 ∧
    (quickAction stLoading (("Hello".toList)) (StreamOutcome.chunks [] false)
        (("t2".toList))).1 ≠ stLoading := by
  refine ⟨rfl, by decide, by decide⟩

/-- C4 (amended): a form submission (`sendMessage`) while loading is
ignored — no state change and no request — so two immediate form
submissions issue exactly one request; the quick-action entry point,
however, has no loading guard and issues a request even while a reply is
outstanding. -/
theorem c4_submission_guard :
    (∀ (st : ChatState) (o : StreamOutcome) (now : Str), st.isLoading = true →
      sendMessage st o now = (st, 0)) ∧
    (∀ (st : ChatState) (now now2 : Str), sendGuardOk st = true →
      (sendStart st now).2 = 1 ∧
      sendStart ((sendStart st now).1) now2 = ((sendStart st now).1, 0)) ∧
    (∀ (st : ChatState) (m : Str) (o : StreamOutcome) (now : Str), st.isLoading = true →
      isValidInput (sanitizeInput (jsTrim m)) = true → (quickAction st m o now).2 = 1) := by
  refine ⟨?_, ?_, ?_⟩
  · intro st o now h
    simp [sendMessage, sendGuardOk, h]
  · intro st now now2 h
    have e1 : sendStart st now =
        ({ st with
            messages := st.messages ++
              [{ content := sanitizeInput (jsTrim st.inputMessage), role := Role.user,
                  timestamp := now }],
            inputMessage := [],
            isLoading := true }, 1) := by
      rw [sendStart, if_pos h]
    refine ⟨by rw [e1], ?_⟩
    rw [e1]
    rw [sendStart, if_neg (by simp [sendGuardOk])]
  · intro st m o now h hv
    simp [quickAction, hv]

/-- Witness for C4 (amended) at concrete states. -/
theorem c4_submission_guard_witness :
    (stLoading.isLoading = true ∧
      sendMessage stLoading StreamOutcome.httpError (("t2".toList)) = (stLoading, 0)) ∧
    (sendGuardOk stIdle = true ∧ (sendStart stIdle (("t2".toList))).2 = 1 ∧
      sendStart ((sendStart stIdle (("t2".toList))).1) (("t3".toList)) =
        ((sendStart stIdle (("t2".toList))).1, 0)) ∧
    (quickAction stLoading (("Hey".toList)) StreamOutcome.httpError (("t2".toList))).2 = 1 :=
  ⟨⟨rfl, (c4_submission_guard).1 stLoading _ _ rfl⟩,
   ⟨by decide, ((c4_submission_guard).2.1 stIdle (("t2".toList)) (("t3".toList)) (by decide)).1,
     ((c4_submission_guard).2.1 stIdle (("t2".toList)) (("t3".toList)) (by decide)).2⟩,
   (c4_submission_guard).2.2 stLoading _ _ _ rfl (by decide)⟩

/-- C5: on every exit path of an exchange — successful stream completion,
mid-stream read failure, non-success response status, or missing body
stream — the loading flag ends false, for both `sendMessage` and
`handleQuickAction` exchanges. -/
theorem c5_loading_always_cleared :
    (∀ (st : ChatState) (o : StreamOutcome) (now : Str), sendGuardOk st = true →
      ((sendMessage st o now).1).isLoading = false) ∧
    (∀ (st : ChatState) (m : Str) (o : StreamOutcome) (now : Str),
      isValidInput (sanitizeInput (jsTrim m)) = true →
      ((quickAction st m o now).1).isLoading = false) := by
  constructor
  · intro st o now h
    simp [sendMessage, h, sendFinish]
  · intro st m o now h
    simp [quickAction, h, sendFinish]

/-- Witness for C5 on all four outcome shapes at a concrete state. -/
theorem c5_loading_always_cleared_witness :
    sendGuardOk stIdle = true ∧
    ((sendMessage stIdle (StreamOutcome.chunks [("ok".toList)] false) (("t2".toList))).1).isLoading
      = false ∧
    ((sendMessage stIdle (StreamOutcome.chunks [("ok".toList)] true) (("t2".toList))).1).isLoading
      = false ∧
    ((sendMessage stIdle StreamOutcome.httpError (("t2".toList))).1).isLoading = false ∧
    ((sendMessage stIdle StreamOutcome.noStream (("t2".toList))).1).isLoading = false ∧
    ((quickAction stLoading (("Hi".toList)) StreamOutcome.httpError (("t2".toList))).1).isLoading
      = false :=
  ⟨by decide,
   (c5_loading_always_cleared).1 stIdle _ _ (by decide),
   (c5_loading_always_cleared).1 stIdle _ _ (by decide),
   (c5_loading_always_cleared).1 stIdle _ _ (by decide),
   (c5_loading_always_cleared).1 stIdle _ _ (by decide),
   (c5_loading_always_cleared).2 stLoading _ _ _ (by decide)⟩

/-- C6 counterexample: after `clearChatHistory` the `conversationId` sent
with subsequent requests equals its pre-reset value — the React state has
no setter, only the persisted copy changes — contradicting the claim that
the id used by the session differs after a reset. -/
theorem c6_counterexample :
    requestConversationId (clearChatHistory stIdle (("t2".toList)) (("zzz".toList))) =
      requestConversationId stIdle ∧
    requestConversationId stIdle = ("conv_old".toList) :=
  ⟨rfl, rfl⟩

/-- C6 (amended): after a reset the transcript is exactly one assistant
greeting message and a newly generated id is persisted (differing from the
previously persisted id whenever the fresh fragment yields a different
string), but the in-memory `conversationId` of the session — the one sent with
subsequent requests until the page reloads — is unchanged. -/
theorem c6_reset (st : ChatState) (now freshFragment : Str)
    (hfresh : some ((("conv_".toList)) ++ freshFragment) ≠ st.store.conversationId) :
    (clearChatHistory st now freshFragment).messages = [greetingMessage now] ∧
    ((clearChatHistory st now freshFragment).messages).map Message.role = [Role.assistant] ∧
    (clearChatHistory st now freshFragment).store.chatMessages = some [greetingMessage now] ∧
    (clearChatHistory st now freshFragment).store.conversationId =
      some ((("conv_".toList)) ++ freshFragment) ∧
    (clearChatHistory st now freshFragment).store.conversationId ≠ st.store.conversationId ∧
    requestConversationId (clearChatHistory st now freshFragment) =
      requestConversationId st :=
  ⟨rfl, rfl, rfl, rfl, hfresh, rfl⟩

/-- Witness for C6 (amended) at a concrete state and fragment. -/
theorem c6_reset_witness :
    (clearChatHistory stIdle (("t2".toList)) (("zzz9".toList))).store.conversationId =
      some ((("conv_".toList)) ++ ("zzz9".toList)) ∧
    (clearChatHistory stIdle (("t2".toList)) (("zzz9".toList))).store.conversationId ≠
      stIdle.store.conversationId :=
  ⟨(c6_reset stIdle _ _ (by decide)).2.2.2.1,
   (c6_reset stIdle _ _ (by decide)).2.2.2.2.1⟩

/-- C7: the gate rejects exactly the strings in which some denylisted
pattern occurs (case-insensitively); concretely it rejects
`javascript:alert(1)`, accepts `hello world`, and sanitization strips the
tags from the bold-wrapped greeting while keeping the exclamation marks. -/
theorem c7_input_gate :
    isValidInput (("javascript:alert(1)".toList)) = false ∧
    isValidInput (("hello world".toList)) = true ∧
    sanitizeInput (("<b>hi</b>!!".toList)) = ("hi!!".toList) ∧
    (∀ s : Str, isValidInput s = false ↔
      ∃ pat ∈ dangerousPatterns, containsCI pat s = true) := by
  refine ⟨by decide, by decide, by decide, ?_⟩
  intro s
  simp [isValidInput, List.any_eq_true]

/-- Witness for the general clause of C7 at a concrete rejected input. -/
theorem c7_input_gate_witness :
    isValidInput (("data:x".toList)) = false ↔
      ∃ pat ∈ dangerousPatterns, containsCI pat (("data:x".toList)) = true :=
  (c7_input_gate).2.2.2 (("data:x".toList))

/-- C8: a well-formed fenced span (optional word-character language label,
newline, body free of interior triple backticks) becomes a single code
node carrying the label and the trimmed body, flanked by the empty text
parts the split produces; a fence opened without a matching close is
passed through as plain text unchanged. -/
theorem c8_code_fences :
    (∀ lang body : Str, lang.all isWordChar = true →
      breakOnTriple (lang ++ '\n' :: (body ++ [btick, btick])) = none →
      formatMessage (fenceMarker ++ (lang ++ ('\n' :: (body ++ fenceMarker)))) =
        [Node.textPart [], Node.codeBlock lang (jsTrim body), Node.textPart []]) ∧
    (∀ rest : Str, breakOnTriple rest = none →
      formatMessage (fenceMarker ++ rest) = [Node.plain (fenceMarker ++ rest)]) := by
  constructor
  · intro lang body hlang hbody
    have hnl : isWordChar '\n' = false := by decide
    have hlang2 : ∀ a ∈ lang, isWordChar a = true := fun a ha =>
      (List.all_eq_true.mp hlang) a ha
    have hbody2 : breakOnTriple (body ++ [btick, btick]) = none := by
      refine breakOnTriple_suffix_none ⟨lang ++ ['\n'], by simp⟩ hbody
    have hbody3 : breakOnTriple ((lang ++ '\n' :: body) ++ [btick, btick]) = none := by
      rw [show (lang ++ '\n' :: body) ++ [btick, btick] =
        lang ++ '\n' :: (body ++ [btick, btick]) by simp]
      exact hbody
    have h1 : breakOnTriple (fenceMarker ++ (lang ++ ('\n' :: (body ++ fenceMarker)))) =
        some ([], lang ++ ('\n' :: (body ++ fenceMarker))) := by
      have h0 := breakOnTriple_fence (m := [])
        (lang ++ ('\n' :: (body ++ fenceMarker))) (by decide)
      simpa using h0
    have hX : breakOnTriple (lang ++ ('\n' :: (body ++ fenceMarker))) =
        some (lang ++ '\n' :: body, []) := by
      have h0 := breakOnTriple_fence (m := lang ++ '\n' :: body) [] hbody3
      rw [show (lang ++ '\n' :: body) ++ (fenceMarker ++ []) =
        lang ++ ('\n' :: (body ++ fenceMarker)) by simp] at h0
      exact h0
    have hFull : fullFenceSplit (fenceMarker ++ (lang ++ ('\n' :: (body ++ fenceMarker)))) =
        some ([], fenceMarker ++ ((lang ++ '\n' :: body) ++ fenceMarker), []) := by
      simp only [fullFenceSplit, h1, hX]
      simp [List.append_assoc]
    have hclose : breakOnTriple (body ++ fenceMarker) = some (body, []) := by
      have h0 := breakOnTriple_fence (m := body) [] hbody2
      rw [show body ++ (fenceMarker ++ []) = body ++ fenceMarker by simp] at h0
      exact h0
    have htry : tryMatchAt (fenceMarker ++ (lang ++ ('\n' :: (body ++ fenceMarker)))) =
        some (lang, body) := by
      simp only [tryMatchAt]
      rw [if_pos (prefixOf_append _ _)]
      have hdrop : (fenceMarker ++ (lang ++ ('\n' :: (body ++ fenceMarker)))).drop 3 =
          lang ++ ('\n' :: (body ++ fenceMarker)) := rfl
      rw [hdrop]
      rw [List.takeWhile_append_of_pos hlang2, List.dropWhile_append_of_pos hlang2]
      simp only [List.takeWhile_cons, List.dropWhile_cons, hnl]
      simp only [Bool.false_eq_true, if_false, reduceIte]
      rw [hclose]
      simp
    have hfind : findFenceMatch (fenceMarker ++ (lang ++ ('\n' :: (body ++ fenceMarker)))) =
        some (lang, body) := by
      have htry2 : tryMatchAt
          (btick :: (btick :: (btick :: (lang ++ ('\n' :: (body ++ fenceMarker)))))) =
          some (lang, body) := htry
      show findFenceMatch
        (btick :: (btick :: (btick :: (lang ++ ('\n' :: (body ++ fenceMarker)))))) = _
      rw [findFenceMatch, htry2]
    have hproc : processPart (fenceMarker ++ (lang ++ ('\n' :: (body ++ fenceMarker)))) =
        Node.codeBlock lang (jsTrim body) := by
      simp only [processPart]
      rw [if_pos (prefixOf_append _ _), hfind]
    have hD : fenceMarker ++ ((lang ++ '\n' :: body) ++ fenceMarker) =
        fenceMarker ++ (lang ++ ('\n' :: (body ++ fenceMarker))) := by simp
    show (splitFences (fenceMarker ++ (lang ++ ('\n' :: (body ++ fenceMarker))))).map
        processPart = _
    rw [splitFences_of_some hFull, splitFences_of_none (show fullFenceSplit [] = none from rfl)]
    simp only [List.map]
    rw [hD, hproc]
    rw [show processPart [] = Node.textPart [] from by decide]
  · intro rest hrest
    have h1 : breakOnTriple (fenceMarker ++ rest) = some ([], rest) := by
      have h0 := breakOnTriple_fence (m := []) rest (by decide)
      simpa using h0
    have hFull : fullFenceSplit (fenceMarker ++ rest) = none := by
      simp only [fullFenceSplit, h1, hrest]
    have hdrop : (fenceMarker ++ rest).drop 3 = rest := rfl
    have hfind : findFenceMatch (fenceMarker ++ rest) = none :=
      findFenceMatch_none (by rw [hdrop]; exact hrest)
    show (splitFences (fenceMarker ++ rest)).map processPart = _
    rw [splitFences_of_none hFull]
    simp only [List.map]
    simp only [processPart]
    rw [if_pos (prefixOf_append _ _), hfind]

/-- Witness for C8 at the concrete js example and a concrete unclosed
fence. -/
theorem c8_code_fences_witness :
    formatMessage (fenceMarker ++ (("js".toList) ++ ('\n' :: (("console.log(1)\n".toList) ++
        fenceMarker)))) =
      [Node.textPart [], Node.codeBlock (("js".toList)) (("console.log(1)".toList)),
        Node.textPart []] ∧
    formatMessage (fenceMarker ++ ("js\nfoo".toList)) =
      [Node.plain (fenceMarker ++ ("js\nfoo".toList))] := by
  constructor
  · have h := (c8_code_fences).1 (("js".toList)) (("console.log(1)\n".toList))
      (by decide) (by decide)
    rw [h]
    decide
  · exact (c8_code_fences).2 (("js\nfoo".toList)) (by decide)

/-- C9 counterexample: formatting `a`, empty line, `b` yields two
paragraph nodes and no line-break node anywhere in the output — the empty
line produces the React child `null` (nothing), not a LineBreak node as
the claim states. -/
theorem c9_counterexample :
    ((formatMessage (("a\n\nb".toList))).any nodeHasBreak) = false ∧
    formatMessage (("a\n\nb".toList)) =
      [Node.textPart [LineNode.paragraph (("a".toList)), LineNode.paragraph (("b".toList))]] := by
  have hFull : fullFenceSplit (("a\n\nb".toList)) = none := by decide
  have hs : formatMessage (("a\n\nb".toList)) = [processPart (("a\n\nb".toList))] := by
    show (splitFences _).map processPart = _
    rw [splitFences_of_none hFull]
    rfl
  exact ⟨by rw [hs]; decide, by rw [hs]; decide⟩

/-- C9 (amended): within a non-code part, every non-empty line that is
neither a bullet line nor a numbered line produces a Paragraph node, and
an empty line produces no node at all (the source renders null for it),
rather than a LineBreak node. -/
theorem c9_line_nodes (line : Str)
    (hb : (jsTrim line).head? ≠ some '•')
    (hn : numMarker line = none) (hne : line ≠ []) :
    lineToNode line = some (LineNode.paragraph line) ∧ lineToNode [] = none := by
  refine ⟨?_, by decide⟩
  match line with
  | [] => exact absurd rfl hne
  | c :: cs =>
    rw [lineToNode, if_neg hb, hn]
    rfl

/-- Witness for C9 (amended) at a concrete plain line. -/
theorem c9_line_nodes_witness :
    lineToNode (("hello".toList)) = some (LineNode.paragraph (("hello".toList))) :=
  (c9_line_nodes (("hello".toList)) (by decide) (by decide) (by decide)).1

/-- A case-insensitive prefix match aligns every pattern character with
some subject character it matches. -/
theorem prefixCI_mem : ∀ {p l : Str}, prefixCI p l = true →
    ∀ b ∈ p, ∃ c ∈ l, matchCI b c = true := by
  intro p
  induction p with
  | nil => intro l h b hb; simp at hb
  | cons x xs ih =>
    intro l h b hb
    match l with
    | [] => simp [prefixCI] at h
    | c :: cs =>
      rw [prefixCI, Bool.and_eq_true] at h
      rcases List.mem_cons.mp hb with rfl | hb2
      · exact ⟨c, List.mem_cons_self c cs, h.1⟩
      · obtain ⟨c2, hc2, hm⟩ := ih h.2 b hb2
        exact ⟨c2, List.mem_cons_of_mem _ hc2, hm⟩

/-- A case-insensitive occurrence aligns every pattern character with some
subject character it matches. -/
theorem containsCI_mem : ∀ {p l : Str}, containsCI p l = true →
    ∀ b ∈ p, ∃ c ∈ l, matchCI b c = true := by
  intro p l
  induction l with
  | nil => exact fun h b hb => prefixCI_mem h b hb
  | cons c cs ih =>
    intro h b hb
    rw [containsCI, Bool.or_eq_true] at h
    rcases h with h1 | h2
    · exact prefixCI_mem h1 b hb
    · obtain ⟨c2, hc2, hm⟩ := ih h2 b hb
      exact ⟨c2, List.mem_cons_of_mem _ hc2, hm⟩

/-- A pattern character that is not a lowercase letter matches only
itself. -/
theorem matchCI_exact {b c : Char} (hb : (97 ≤ b.toNat && b.toNat ≤ 122) = false)
    (h : matchCI b c = true) : c = b := by
  rw [matchCI, Bool.or_eq_true] at h
  rcases h with h1 | h2
  · exact of_decide_eq_true h1
  · exfalso
    simp at h2 hb
    omega

/-- Every character surviving sanitization is in the allowed class. -/
theorem sanitize_mem_allowed {s : Str} {c : Char} (h : c ∈ sanitizeInput s) :
    allowedChar c = true :=
  (List.mem_filter.mp h).2

/-- C10: sanitization leaves only characters from the allowed class, and
every denylisted pattern needs a colon, an equals sign, a left angle
bracket or a left parenthesis — all outside that class — so a sanitized
string always passes the validity gate. -/
theorem c10_sanitized_always_valid : ∀ s : Str, isValidInput (sanitizeInput s) = true := by
  intro s
  cases hany : (dangerousPatterns.any fun pat => containsCI pat (sanitizeInput s)) with
  | false => rw [isValidInput, hany]; rfl
  | true =>
    exfalso
    rw [List.any_eq_true] at hany
    obtain ⟨pat, hpat, hc⟩ := hany
    have key : ∀ b : Char, allowedChar b = false →
        (97 ≤ b.toNat && b.toNat ≤ 122) = false → b ∈ pat → False := by
      intro b hba hblower hbp
      obtain ⟨c, hcs, hm⟩ := containsCI_mem hc b hbp
      have hcb := matchCI_exact hblower hm
      subst hcb
      have hgood := sanitize_mem_allowed hcs
      rw [hba] at hgood
      exact Bool.false_ne_true hgood
    simp only [dangerousPatterns, List.mem_cons, List.not_mem_nil, or_false] at hpat
    rcases hpat with rfl | rfl | rfl | rfl | rfl | rfl | rfl | rfl
    · exact key ':' (by decide) (by decide) (by decide)
    · exact key ':' (by decide) (by decide) (by decide)
    · exact key ':' (by decide) (by decide) (by decide)
    · exact key '=' (by decide) (by decide) (by decide)
    · exact key '=' (by decide) (by decide) (by decide)
    · exact key '<' (by decide) (by decide) (by decide)
    · exact key '(' (by decide) (by decide) (by decide)
    · exact key '(' (by decide) (by decide) (by decide)

end WorldHelper
